import Mathlib

/-!
Verification development for the CertStreamMonitor host-scanning pipeline
(`scanhost.py`): a shallow embedding of the batch scan driver
`parse_and_scan_all_hostnames` and its helpers (`get_requests`,
`get_webpage_title`, `get_ASN_Infos`, `scan_hostname`,
`get_random_UserAgent_header`), with the external world (HTTP transport,
DNS resolver, RDAP registry, reputation service, clock) supplied as an
explicit environment and side effects recorded as an explicit trace.
-/

/-! ## Python `int()` on the stored investigation-state strings

The pipeline stores attempt counters with `str(Attempts)` and reads them
back with `int(Attempts)`.  We model Python's `int` on strings as: strip
surrounding whitespace, then an optional sign followed by a non-empty run
of ASCII decimal digits; any other shape raises (`none`).  (Python's `int`
additionally accepts underscores between digits and non-ASCII Unicode
decimal digits; neither shape ever occurs in a state this pipeline writes.)
-/

def pyWs (c : Char) : Bool :=
  c = ' ' || c = '\t' || c = '\n' || c = '\r'

def isDigit (c : Char) : Bool :=
  '0' ≤ c && c ≤ '9'

def digitVal (c : Char) : Nat :=
  c.toNat - '0'.toNat

def digitsVal (cs : List Char) : Nat :=
  cs.foldl (fun a c => a * 10 + digitVal c) 0

def stripChars (cs : List Char) : List Char :=
  ((cs.dropWhile pyWs).reverse.dropWhile pyWs).reverse

def pyIntChars (cs : List Char) : Option Int :=
  match cs with
  | [] => none
  | c :: rest =>
    if c = '+' then
      if rest ≠ [] && rest.all isDigit then some ((digitsVal rest : Nat) : Int) else none
    else if c = '-' then
      if rest ≠ [] && rest.all isDigit then some (-((digitsVal rest : Nat) : Int)) else none
    else if (c :: rest).all isDigit then some ((digitsVal (c :: rest) : Nat) : Int)
    else none

def pyInt (s : String) : Option Int :=
  pyIntChars (stripChars s.toList)

/-! ## Record store rows and the pending-row selection

A row of the monitored table carries `Domain`, `Fingerprint` and
`StillInvestig` (NULL modelled as `none`).  The selection query is
`StillInvestig IS NULL or StillInvestig = '' or StillInvestig LIKE '_'`;
SQLite's `_` wildcard matches exactly one character.
-/

structure Row where
  domain : String
  fingerprint : String
  stillInvestig : Option String
deriving DecidableEq

def matchesPending : Option String → Bool
  | none => true
  | some s => s = "" || s.length = 1

def fetch_pending (db : List Row) : List Row :=
  db.filter (fun r => matchesPending r.stillInvestig)

/-! ## `get_ASN_Infos`

`lookup_rdap` either fails (any exception, or a missing top-level field:
`none`) or yields the four registration fields plus the entity objects.
Each entity's `roles` access and `contact['email'][0]['value']` access can
itself raise; a raise anywhere in the scanning loop is caught by the inner
handler, which sets `asn_abuse_email = ""`.  If the loop instead finishes
cleanly without meeting an abuse entity, `asn_abuse_email` was never
assigned, so the `return` raises `UnboundLocalError`, which the outer
handler catches by returning five empty strings.
-/

structure Entity where
  roles : Option (List String)
  contactEmails : Option (List String)
deriving DecidableEq

structure RdapResult where
  asn : String
  asn_cidr : String
  asn_country_code : String
  asn_description : String
  objects : List Entity
deriving DecidableEq

structure ASNInfos where
  asn : String
  asn_cidr : String
  asn_country_code : String
  asn_description : String
  asn_abuse_email : String
deriving DecidableEq

def emptyASNInfos : ASNInfos :=
  ⟨"", "", "", "", ""⟩

inductive AbuseScan where
  | found (email : String)
  | excepted
  | notFound
deriving DecidableEq

def scanEntities : List Entity → AbuseScan
  | [] => .notFound
  | e :: rest =>
    match e.roles with
    | none => .excepted
    | some roles =>
      if roles.contains "abuse" then
        match e.contactEmails with
        | none => .excepted
        | some [] => .excepted
        | some (em :: _) => .found em
      else scanEntities rest

def get_ASN_Infos (rdap : Option RdapResult) : ASNInfos :=
  match rdap with
  | none => emptyASNInfos
  | some r =>
    match scanEntities r.objects with
    | .found em => ⟨r.asn, r.asn_cidr, r.asn_country_code, r.asn_description, em⟩
    | .excepted => ⟨r.asn, r.asn_cidr, r.asn_country_code, r.asn_description, ""⟩
    | .notFound => emptyASNInfos

/-! ## `get_webpage_title`

`re.search('<title>(.*?)</title>', page, re.IGNORECASE)` on the stripped
response body: the pattern is matched case-insensitively, `.` does not
cross a newline, and the non-greedy group takes the shortest span; the
match starting at the earliest `<title>` occurrence that is followed (with
no intervening newline) by `</title>` wins.  Absence of a match, or any
error, yields the empty string.
-/

def lowerAsciiChar (c : Char) : Char :=
  if 'A' ≤ c && c ≤ 'Z' then Char.ofNat (c.toNat + 32) else c

def ciStarts : List Char → List Char → Bool
  | [], _ => true
  | _ :: _, [] => false
  | p :: ps, c :: cs => lowerAsciiChar c = p && ciStarts ps cs

def takeUntilClose : List Char → Option (List Char)
  | [] => none
  | c :: rest =>
    if ciStarts "</title>".toList (c :: rest) then some []
    else if c = '\n' then none
    else (takeUntilClose rest).map (c :: ·)

def titleSearch : List Char → Option (List Char)
  | [] => none
  | c :: rest =>
    if ciStarts "<title>".toList (c :: rest) then
      match takeUntilClose ((c :: rest).drop 7) with
      | some t => some t
      | none => titleSearch rest
    else titleSearch rest

def get_webpage_title (text : String) : String :=
  match titleSearch (stripChars text.toList) with
  | some t => String.mk t
  | none => ""

/-! ## The Scan Result record (`site_infos`) and its JSON serialization

`site_infos` is the eleven-field dict built in `scan_hostname`; the Alert
Artifact is `json.dump(site_infos, f, indent=4)`.  Serialization is
modelled at the JSON-value level (`JVal`): Python's text rendering with
`indent=4` followed by `json.load` is the identity on these values, so the
write-then-parse round trip of the claim is the round trip through the
encoder `siteInfosToJson` and the decoder `siteInfosOfJson`.
-/

structure SiteInfos where
  hostname : String
  http_code : Int
  cert_serial_number : String
  webpage_title : String
  ip_addr : String
  asn : String
  asn_cidr : String
  asn_country_code : String
  asn_description : String
  asn_abuse_email : String
  safe_browsing_status : String
deriving DecidableEq

inductive JVal where
  | jstr (s : String)
  | jint (n : Int)
  | jobj (fields : List (String × JVal))

def siteInfosToJson (s : SiteInfos) : JVal :=
  .jobj [
    ("hostname", .jstr s.hostname),
    ("http_code", .jint s.http_code),
    ("cert_serial_number", .jstr s.cert_serial_number),
    ("webpage_title", .jstr s.webpage_title),
    ("ip_addr", .jstr s.ip_addr),
    ("asn", .jstr s.asn),
    ("asn_cidr", .jstr s.asn_cidr),
    ("asn_country_code", .jstr s.asn_country_code),
    ("asn_description", .jstr s.asn_description),
    ("asn_abuse_email", .jstr s.asn_abuse_email),
    ("safe_browsing_status", .jstr s.safe_browsing_status)]

def jlookup (k : String) : List (String × JVal) → Option JVal
  | [] => none
  | (k', v) :: rest => if k' = k then some v else jlookup k rest

def jAsStr : JVal → Option String
  | .jstr s => some s
  | _ => none

def jAsInt : JVal → Option Int
  | .jint n => some n
  | _ => none

def siteInfosOfJson : JVal → Option SiteInfos
  | .jobj fields => do
    let hostname ← (jlookup "hostname" fields).bind jAsStr
    let http_code ← (jlookup "http_code" fields).bind jAsInt
    let cert_serial_number ← (jlookup "cert_serial_number" fields).bind jAsStr
    let webpage_title ← (jlookup "webpage_title" fields).bind jAsStr
    let ip_addr ← (jlookup "ip_addr" fields).bind jAsStr
    let asn ← (jlookup "asn" fields).bind jAsStr
    let asn_cidr ← (jlookup "asn_cidr" fields).bind jAsStr
    let asn_country_code ← (jlookup "asn_country_code" fields).bind jAsStr
    let asn_description ← (jlookup "asn_description" fields).bind jAsStr
    let asn_abuse_email ← (jlookup "asn_abuse_email" fields).bind jAsStr
    let safe_browsing_status ← (jlookup "safe_browsing_status" fields).bind jAsStr
    pure ⟨hostname, http_code, cert_serial_number, webpage_title, ip_addr, asn,
          asn_cidr, asn_country_code, asn_description, asn_abuse_email,
          safe_browsing_status⟩
  | _ => none

/-! ## The User-Agent pool

`lines = open(UAFILE).read().splitlines()` with fallback `lines = UA` on
any read failure; `UA` is the single configured default user-agent
*string*, so in the fallback case `random.choice(lines)` draws from the
characters of that string.  `get_random_UserAgent_header` picks
`random.choice(lines)`; the random draw is modelled by the index `i`
(with `random.choice` always choosing an index below the pool length).
-/

inductive UAPool where
  | fromFile (ls : List String)
  | fallback (ua : String)
deriving DecidableEq

def uaPool (fileContents : Option (List String)) (ua : String) : UAPool :=
  match fileContents with
  | some ls => .fromFile ls
  | none => .fallback ua

def poolElems : UAPool → List String
  | .fromFile ls => ls
  | .fallback ua => ua.toList.map (fun c => String.mk [c])

def get_random_UserAgent_header (p : UAPool) (i : Nat) : Option String :=
  (poolElems p).get? i

/-! ## The per-host external environment and the effect trace

`HostEnv` packages what the outside world answers for one row: the HTTP
probe outcome (`http = none` covers every caught request exception:
SSL, connection, generic), the DNS resolution (`dns = none` means
`socket.gethostbyname` raises), the RDAP lookup, the Safe Browsing answer
(`sb = none` means `threat_matches_find` raises) and the UTC timestamp
`datetime.datetime.utcnow().replace(microsecond=0).isoformat()` taken when
the row resolves.  Side effects of processing are recorded as a trace:
network requests, DNS queries, store updates (`cur.execute UPDATE`),
directory creation, artifact writes (the artifact content is the
`SiteInfos` whose `siteInfosToJson` rendering `json.dump` writes) and
notifications.
-/

structure HttpResp where
  status_code : Int
  text : String
deriving DecidableEq

structure HostEnv where
  http : Option HttpResp
  dns : Option String
  rdap : Option RdapResult
  sb : Option String
  now : String
deriving DecidableEq

inductive Effect where
  | netRequest (url : String)
  | dnsQuery (hostname : String)
  | dbUpdate (domain fingerprint newState : String)
  | mkdir (path : String)
  | fileWrite (path : String) (content : SiteInfos)
  | notify (hostname : String) (content : SiteInfos)
deriving DecidableEq

def Effect.isNetRequest : Effect → Bool
  | .netRequest _ => true
  | _ => false

def Effect.isFileWrite : Effect → Bool
  | .fileWrite _ _ => true
  | _ => false

/-! ## `get_requests` and `scan_hostname`

`get_requests` skips any hostname containing `*` without touching the
network and returns `None`; otherwise it issues one request and returns
`None` on every caught exception.  `scan_hostname` returns the `site_infos`
dict on success; a raise from `socket.gethostbyname` or from the Safe
Browsing lookup reaches its outer handler, which returns `{}` (`none`),
exactly as a failed probe does.  The `user-agent` header drawn for the
request is part of the abstracted network environment.  The Safe Browsing
branch guard `Safe_Browsing_API_Key is not ''` is modelled as inequality
with the empty string.
-/

def strContains (s : String) (c : Char) : Bool :=
  s.toList.any (fun a => a = c)

def get_requests (hostname : String) (henv : HostEnv) : Option HttpResp × List Effect :=
  if strContains hostname '*' then (none, [])
  else (henv.http, [.netRequest ("https://" ++ hostname)])

def scan_hostname (hostname serial sbKey : String) (henv : HostEnv) :
    Option SiteInfos × List Effect :=
  match get_requests hostname henv with
  | (none, effs) => (none, effs)
  | (some r, effs) =>
    let title := get_webpage_title r.text
    match henv.dns with
    | none => (none, effs ++ [.dnsQuery hostname])
    | some ipaddr =>
      let a := get_ASN_Infos henv.rdap
      let sbRes : Option String :=
        if sbKey ≠ "" then henv.sb else some "No API key in config file"
      match sbRes with
      | none => (none, effs ++ [.dnsQuery hostname])
      | some sbs =>
        (some ⟨hostname, r.status_code, serial, title, ipaddr, a.asn, a.asn_cidr,
               a.asn_country_code, a.asn_description, a.asn_abuse_email, sbs⟩,
         effs ++ [.dnsQuery hostname])

/-! ## The batch driver `parse_and_scan_all_hostnames`

The per-run configuration (`MaxAttempts`, `Alerts_dir`, `fqdn_dirs`,
`Notification_Destination`, `Safe_Browsing_API_Key`) and injected failure
points per row (a `cur.execute` UPDATE raising, the artifact `open`/
`json.dump` raising, `apobj.notify` raising).  The whole row loop sits in
one `try`, so the first uncaught exception ends the batch: `runBatch`
stops at the first error, keeping the effects already performed, and the
function returns `False`.
-/

structure Config where
  maxAttempts : Int
  alertsDir : String
  fqdnDirs : Bool
  notifDest : String
  sbKey : String
deriving DecidableEq

structure RowFaults where
  dbUpdateFails : Bool
  fileWriteFails : Bool
  notifyFails : Bool
deriving DecidableEq

def noFaults : RowFaults :=
  ⟨false, false, false⟩

inductive PyErr where
  | valueError (s : String)
  | storeError
  | fileError
  | notifyError
deriving DecidableEq

def rowAttempts : Option String → Except PyErr Int
  | none => .ok 0
  | some s =>
    match pyInt s with
    | some n => .ok n
    | none => .error (.valueError s)

def failBranch (cfg : Config) (flt : RowFaults) (attempts : Int) (r : Row) :
    List Effect × Option PyErr :=
  let a := attempts + 1
  let newState := if a > cfg.maxAttempts then "Disabled" else toString a
  if flt.dbUpdateFails then ([], some .storeError)
  else ([.dbUpdate r.domain r.fingerprint newState], none)

def attemptOnly (cfg : Config) (flt : RowFaults) (r : Row) : List Effect × Option PyErr :=
  match rowAttempts r.stillInvestig with
  | .error e => ([], some e)
  | .ok n => failBranch cfg flt n r

def splitDotAux : List Char → List Char → List String
  | [], acc => [String.mk acc.reverse]
  | c :: rest, acc =>
    if c = '.' then String.mk acc.reverse :: splitDotAux rest []
    else splitDotAux rest (c :: acc)

def splitDot (s : String) : List String :=
  splitDotAux s.toList []

def fqdnPath (alertsDir hostname : String) : String :=
  ((splitDot hostname).reverse).foldl (fun d w => d ++ "/" ++ w) alertsDir

def artifactPath (alertsDir : String) (fqdnDirs : Bool) (hostname : String) : String :=
  if fqdnDirs then fqdnPath alertsDir hostname ++ "/" ++ hostname ++ ".json"
  else alertsDir ++ "/" ++ hostname ++ ".json"

def makedirs (fs : List String) (d : String) : List String :=
  if d ∈ fs then fs else d :: fs

def successBranch (cfg : Config) (flt : RowFaults) (henv : HostEnv) (r : Row)
    (si : SiteInfos) : List Effect × Option PyErr :=
  if flt.dbUpdateFails then ([], some .storeError)
  else
    let e1 := Effect.dbUpdate r.domain r.fingerprint henv.now
    let dirEffs := if cfg.fqdnDirs then [Effect.mkdir (fqdnPath cfg.alertsDir r.domain)] else []
    if flt.fileWriteFails then (e1 :: dirEffs, some .fileError)
    else
      let e2 := Effect.fileWrite (artifactPath cfg.alertsDir cfg.fqdnDirs r.domain) si
      if cfg.notifDest ≠ "" then
        if flt.notifyFails then (e1 :: dirEffs ++ [e2], some .notifyError)
        else (e1 :: dirEffs ++ [e2, .notify r.domain si], none)
      else (e1 :: dirEffs ++ [e2], none)

def processRow (cfg : Config) (env : Row → HostEnv) (faults : Row → RowFaults) (r : Row) :
    List Effect × Option PyErr :=
  match rowAttempts r.stillInvestig with
  | .error e => ([], some e)
  | .ok attempts =>
    match scan_hostname r.domain r.fingerprint cfg.sbKey (env r) with
    | (none, scanEffs) =>
      let (effs, res) := failBranch cfg (faults r) attempts r
      (scanEffs ++ effs, res)
    | (some si, scanEffs) =>
      let (effs, res) := successBranch cfg (faults r) (env r) r si
      (scanEffs ++ effs, res)

def runBatch (cfg : Config) (env : Row → HostEnv) (faults : Row → RowFaults) :
    List Row → List Effect × Bool
  | [] => ([], true)
  | r :: rest =>
    match processRow cfg env faults r with
    | (effs, some _) => (effs, false)
    | (effs, none) =>
      let (effs2, ok) := runBatch cfg env faults rest
      (effs ++ effs2, ok)

def applyEffect (db : List Row) : Effect → List Row
  | .dbUpdate d f st =>
    db.map (fun r => if r.domain = d && r.fingerprint = f
                     then { r with stillInvestig := some st } else r)
  | _ => db

def applyEffects (db : List Row) (effs : List Effect) : List Row :=
  effs.foldl applyEffect db

def runScan (cfg : Config) (env : Row → HostEnv) (faults : Row → RowFaults)
    (db : List Row) : List Row × List Effect × Bool :=
  let pending := fetch_pending db
  let (effs, ok) := runBatch cfg env faults pending
  (applyEffects db effs, Effect.mkdir cfg.alertsDir :: effs, ok)

def scanStep (cfg : Config) (env : Row → HostEnv) (faults : Row → RowFaults)
    (db : List Row) : List Row :=
  (runScan cfg env faults db).1

/-! ## Shared concrete fixtures -/

def cfgThree : Config :=
  ⟨3, "alerts", false, "", ""⟩

def probeFailEnv : Row → HostEnv :=
  fun _ => ⟨none, none, none, none, "2026-10-12T00:00:00"⟩

def faultFree : Row → RowFaults :=
  fun _ => noFaults

def evilRow (st : Option String) : Row :=
  ⟨"evil.example.com", "AB:CD", st⟩

/-- C3: if the registration record is found with its four fields but the entity
list holds no entity whose roles contain "abuse", the scanning loop finishes
cleanly without ever assigning `asn_abuse_email`, the `return` statement raises
`UnboundLocalError`, and the outer handler returns all five fields empty — not
just `abuse_email`.  The claim's expected partial result (four determined
fields kept, only the abuse email blank) is exactly what the code fails to
produce at this input. -/
theorem c3_no_abuse_entity_blanks_all_fields :
    get_ASN_Infos (some ⟨"AS64496", "203.0.113.0/24", "US", "EXAMPLE-NET",
        [⟨some ["registrant"], some ["noc@example.com"]⟩]⟩) = emptyASNInfos ∧
    get_ASN_Infos (some ⟨"AS64496", "203.0.113.0/24", "US", "EXAMPLE-NET",
        [⟨some ["registrant"], some ["noc@example.com"]⟩]⟩)
      ≠ ⟨"AS64496", "203.0.113.0/24", "US", "EXAMPLE-NET", ""⟩ := by
  decide

/-- C4: when the user-agent file cannot be read, the fallback binds the pool to
the configured default user-agent *string*, so `random.choice` draws one
character of it: every sampled value is a one-character string, never the full
configured default (here index 0 yields "M", not "Mozilla/5.0"). -/
theorem c4_fallback_samples_single_characters :
    get_random_UserAgent_header (uaPool none "Mozilla/5.0") 0 = some "M" ∧
    (poolElems (uaPool none "Mozilla/5.0")).all (fun s => s.length = 1) = true ∧
    "Mozilla/5.0".length ≠ 1 := by
  decide

/-- C9: writing the Alert Artifact for a Scan Result and parsing it back is the
identity on the eleven Scan Result fields: decoding the encoded JSON value
recovers exactly the in-memory record. -/
theorem c9_artifact_roundtrip (si : SiteInfos) :
    siteInfosOfJson (siteInfosToJson si) = some si :=
  rfl

/-- C8: the artifact path is `base_dir/hostname.json` when fqdn mode is off;
with fqdn mode on, `mail.example.com` is written below the reversed labels,
at `base_dir/com/example/mail/mail.example.com.json`; and creating a directory
that already exists changes nothing (never an error). -/
theorem c8_artifact_paths (fs : List String) (d : String) (hd : d ∈ fs) :
    (∀ base h, artifactPath base false h = base ++ "/" ++ h ++ ".json") ∧
    (∀ base, artifactPath base true "mail.example.com"
        = base ++ "/com/example/mail/mail.example.com.json") ∧
    makedirs fs d = fs := by
  refine ⟨fun base h => rfl, fun base => ?_, by simp [makedirs, hd]⟩
  have hsplit : (splitDot "mail.example.com").reverse = ["com", "example", "mail"] := by
    decide
  show fqdnPath base "mail.example.com" ++ "/" ++ "mail.example.com" ++ ".json" = _
  unfold fqdnPath
  rw [hsplit]
  show ((((base ++ "/" ++ "com") ++ "/" ++ "example") ++ "/" ++ "mail")
      ++ "/" ++ "mail.example.com") ++ ".json" = _
  simp only [String.append_assoc]
  congr 1

theorem c8_witness :
    (∀ base h, artifactPath base false h = base ++ "/" ++ h ++ ".json") ∧
    (∀ base, artifactPath base true "mail.example.com"
        = base ++ "/com/example/mail/mail.example.com.json") ∧
    makedirs ["alerts/com"] "alerts/com" = ["alerts/com"] :=
  c8_artifact_paths ["alerts/com"] "alerts/com" (by decide)

/-- C5: the claim fails for a configured maximum of 12: a row holding the
numeric count 10 (1 <= 10 <= 12, exhaustion not yet triggered since 10 does
not exceed 12) is NOT selected by the pending query — "10" is neither NULL nor
empty nor a single character, so `LIKE '_'` rejects it. -/
theorem c5_count_ten_not_selected :
    (1 : Int) ≤ 10 ∧ (10 : Int) ≤ 12 ∧ toString (10 : Int) = "10" ∧
    fetch_pending [⟨"host.example.com", "FP", some (toString (10 : Int))⟩] = [] := by
  decide

/-- C5 (amended): a row whose stored state is the decimal rendering of an
attempt count between 1 and 9 — a single character, hence matched by the
`LIKE '_'` placeholder pattern — is selected again by `fetch_pending` on a
future run; counts of ten or more (reachable once the configured maximum is at
least 10) no longer match the selection query. -/
theorem c5_single_digit_counts_reselected (db : List Row) (r : Row) (n : Int)
    (hmem : r ∈ db) (hstate : r.stillInvestig = some (toString n))
    (h1 : 1 ≤ n) (h9 : n ≤ 9) :
    r ∈ fetch_pending db := by
  have hm : matchesPending r.stillInvestig = true := by
    rw [hstate]
    interval_cases n <;> decide
  exact List.mem_filter.mpr ⟨hmem, hm⟩

theorem c5_witness :
    (⟨"h.example.com", "F0", some "3"⟩ : Row)
      ∈ fetch_pending [⟨"h.example.com", "F0", some "3"⟩] :=
  c5_single_digit_counts_reselected [⟨"h.example.com", "F0", some "3"⟩]
    ⟨"h.example.com", "F0", some "3"⟩ 3 (by decide) (by decide) (by decide) (by decide)

/-- C6: starting from the unset state with maximum attempts 3, four runs whose
probe fails store "1", "2", "3" and then the "Disabled" sentinel (exhaustion
fires only when the incremented count strictly exceeds the maximum: 4 > 3);
once "Disabled" is stored the row no longer matches `fetch_pending`, so every
further run leaves the store unchanged. -/
theorem c6_exhaustion_after_max_attempts :
    (scanStep cfgThree probeFailEnv faultFree)^[1] [evilRow none]
        = [evilRow (some "1")] ∧
    (scanStep cfgThree probeFailEnv faultFree)^[2] [evilRow none]
        = [evilRow (some "2")] ∧
    (scanStep cfgThree probeFailEnv faultFree)^[3] [evilRow none]
        = [evilRow (some "3")] ∧
    (scanStep cfgThree probeFailEnv faultFree)^[4] [evilRow none]
        = [evilRow (some "Disabled")] ∧
    fetch_pending [evilRow (some "Disabled")] = [] ∧
    ∀ k : Nat, (scanStep cfgThree probeFailEnv faultFree)^[4 + k] [evilRow none]
        = [evilRow (some "Disabled")] := by
  refine ⟨by decide, by decide, by decide, by decide, by decide, fun k => ?_⟩
  rw [Nat.add_comm, Function.iterate_add_apply]
  have h4 : (scanStep cfgThree probeFailEnv faultFree)^[4] [evilRow none]
      = [evilRow (some "Disabled")] := by decide
  rw [h4]
  exact Function.iterate_fixed (by decide) k

/-- C7: a hostname containing `*` is short-circuited by `get_requests` before
any network request, `scan_hostname` returns the empty result with an empty
effect trace, and the row is processed exactly as a failed probe: the
attempt-counter bookkeeping (`attemptOnly`) is all that happens — in
particular the trace holds no network request and no artifact write. -/
theorem c7_wildcard_never_probed (cfg : Config) (env : Row → HostEnv)
    (faults : Row → RowFaults) (r : Row)
    (hw : strContains r.domain '*' = true) :
    scan_hostname r.domain r.fingerprint cfg.sbKey (env r) = (none, []) ∧
    processRow cfg env faults r = attemptOnly cfg (faults r) r ∧
    ∀ e ∈ (processRow cfg env faults r).1,
      e.isNetRequest = false ∧ e.isFileWrite = false := by
  have hscan : scan_hostname r.domain r.fingerprint cfg.sbKey (env r) = (none, []) := by
    simp [scan_hostname, get_requests, hw]
  have hpr : processRow cfg env faults r = attemptOnly cfg (faults r) r := by
    unfold processRow attemptOnly
    rw [hscan]
    cases rowAttempts r.stillInvestig with
    | error e => rfl
    | ok n =>
      cases failBranch cfg (faults r) n r with
      | mk effs res => simp
  refine ⟨hscan, hpr, ?_⟩
  rw [hpr]
  intro e he
  unfold attemptOnly at he
  cases h : rowAttempts r.stillInvestig with
  | error err => rw [h] at he; simp at he
  | ok n =>
    rw [h] at he
    unfold failBranch at he
    by_cases hdb : (faults r).dbUpdateFails
    · simp [hdb] at he
    · simp [hdb] at he
      subst he
      exact ⟨rfl, rfl⟩

def wildRow : Row :=
  ⟨"*.phish.example.com", "WF", none⟩

theorem c7_witness :
    scan_hostname wildRow.domain wildRow.fingerprint cfgThree.sbKey (probeFailEnv wildRow)
        = (none, []) ∧
    processRow cfgThree probeFailEnv faultFree wildRow
        = attemptOnly cfgThree (faultFree wildRow) wildRow :=
  ⟨(c7_wildcard_never_probed cfgThree probeFailEnv faultFree wildRow (by decide)).1,
   (c7_wildcard_never_probed cfgThree probeFailEnv faultFree wildRow (by decide)).2.1⟩

/-- C10: a pending row whose stored state is the empty string, or a single
character that is not a decimal digit, is returned by the selection query
(both shapes match the NULL/empty/`LIKE '_'` predicate), but `int(Attempts)`
raises on it; the whole row loop lives in one `try`, so the batch ends there
with no effect for that row and none for any row after it.  The unset-to-zero
default applies only to the NULL shape, which parses to attempt count 0. -/
theorem c10_malformed_state_aborts_batch (s : String)
    (hs : s = "" ∨ ∃ c, s = String.mk [c] ∧ isDigit c = false) :
    matchesPending (some s) = true ∧
    rowAttempts (some s) = .error (.valueError s) ∧
    rowAttempts none = .ok 0 ∧
    ∀ (cfg : Config) (env : Row → HostEnv) (faults : Row → RowFaults)
      (d fp : String) (rest : List Row),
      runBatch cfg env faults (⟨d, fp, some s⟩ :: rest) = ([], false) := by
  have hpy : pyInt s = none := by
    rcases hs with h | ⟨c, hc, hdig⟩
    · rw [h]; rfl
    · subst hc
      show pyIntChars (stripChars [c]) = none
      by_cases hw : pyWs c
      · simp [stripChars, List.dropWhile, hw, pyIntChars]
      · have hstrip : stripChars [c] = [c] := by
          simp [stripChars, List.dropWhile, hw]
        rw [hstrip]
        unfold pyIntChars
        by_cases hp : c = '+'
        · simp [hp]
        · by_cases hm : c = '-'
          · simp [hp, hm]
          · simp [hp, hm, hdig]
  have hmp : matchesPending (some s) = true := by
    rcases hs with h | ⟨c, hc, _⟩
    · rw [h]; rfl
    · subst hc
      show (String.mk [c] = "" || (String.mk [c]).length = 1) = true
      simp [String.length]
  have hra : rowAttempts (some s) = .error (.valueError s) := by
    show (match pyInt s with
      | some n => Except.ok n
      | none => Except.error (PyErr.valueError s)) = _
    rw [hpy]
  refine ⟨hmp, hra, rfl, fun cfg env faults d fp rest => ?_⟩
  have hproc : processRow cfg env faults ⟨d, fp, some s⟩ = ([], some (.valueError s)) := by
    unfold processRow
    rw [show (⟨d, fp, some s⟩ : Row).stillInvestig = some s from rfl, hra]
  unfold runBatch
  rw [hproc]

theorem c10_witness :
    matchesPending (some "a") = true ∧
    rowAttempts (some "a") = .error (.valueError "a") ∧
    rowAttempts none = .ok 0 ∧
    runBatch cfgThree probeFailEnv faultFree
      [⟨"m.example.com", "MF", some "a"⟩, ⟨"n.example.com", "NF", none⟩] = ([], false) :=
  have h := c10_malformed_state_aborts_batch "a" (Or.inr ⟨'a', by decide, by decide⟩)
  ⟨h.1, h.2.1, h.2.2.1, h.2.2.2 cfgThree probeFailEnv faultFree "m.example.com" "MF"
    [⟨"n.example.com", "NF", none⟩]⟩

/-! ## Per-row processing under fault-free persistence -/

theorem processRow_fault_free (cfg : Config) (env : Row → HostEnv)
    (faults : Row → RowFaults) (r : Row) (hf : faults r = noFaults) (n : Int)
    (hn : rowAttempts r.stillInvestig = .ok n) :
    (processRow cfg env faults r).2 = none ∧
    ∃ st, Effect.dbUpdate r.domain r.fingerprint st ∈ (processRow cfg env faults r).1 := by
  unfold processRow
  rw [hn]
  cases hscan : scan_hostname r.domain r.fingerprint cfg.sbKey (env r) with
  | mk osi scanEffs =>
    cases osi with
    | none =>
      have hfb : failBranch cfg (faults r) n r
          = ([.dbUpdate r.domain r.fingerprint
              (if n + 1 > cfg.maxAttempts then "Disabled" else toString (n + 1))], none) := by
        unfold failBranch
        rw [hf]
        rfl
      constructor
      · simp [hfb]
      · exact ⟨(if n + 1 > cfg.maxAttempts then "Disabled" else toString (n + 1)),
          by simp [hfb]⟩
    | some si =>
      have hsb : successBranch cfg (faults r) (env r) r si
          = (Effect.dbUpdate r.domain r.fingerprint (env r).now
              :: ((if cfg.fqdnDirs then [Effect.mkdir (fqdnPath cfg.alertsDir r.domain)] else [])
              ++ [Effect.fileWrite (artifactPath cfg.alertsDir cfg.fqdnDirs r.domain) si]
              ++ (if cfg.notifDest ≠ "" then [Effect.notify r.domain si] else [])), none) := by
        unfold successBranch
        rw [hf]
        by_cases hnd : cfg.notifDest = "" <;> simp [hnd, noFaults]
      constructor
      · simp [hsb]
      · exact ⟨(env r).now, by simp [hsb]⟩

/-! ## C1 fixtures: a batch whose first row hits a store write failure -/

def dbFaultRow : Row :=
  ⟨"bad.example.com", "F1", none⟩

def okRow : Row :=
  ⟨"ok.example.com", "F2", none⟩

def storeFaults : Row → RowFaults :=
  fun r => if r = dbFaultRow then ⟨true, false, false⟩ else noFaults

/-- C1: the row loop has no per-row handler, so a store write failure on the
first row's state update ends the whole batch: its effect trace stops with the
first row's probe and the batch result is the error flag, while the second
pending row — which on its own would have been processed into a failed-attempt
update — contributes nothing.  This refutes the claimed per-row isolation for
store/artifact/notification failures. -/
theorem c1_store_failure_aborts_batch :
    runBatch cfgThree probeFailEnv storeFaults [dbFaultRow, okRow]
        = ([.netRequest "https://bad.example.com"], false) ∧
    processRow cfgThree probeFailEnv storeFaults okRow
        = ([.netRequest "https://ok.example.com",
            .dbUpdate "ok.example.com" "F2" "1"], none) := by
  decide

/-- C1 (amended): exceptions raised while probing or enriching a row — inside
`scan_hostname`: transport errors, DNS-resolution failure, ownership lookup
failure, reputation lookup failure — never abort the batch: whatever the
external environment answers, a batch whose rows all have parseable states and
no store/artifact/notification fault completes (`True` result) and every row
is processed, receiving a store update.  Only a store write, artifact write or
notification failure (or an unparseable state) escapes to the batch-level
handler. -/
theorem c1_scan_failures_isolated (cfg : Config) (env : Row → HostEnv)
    (faults : Row → RowFaults) (rows : List Row)
    (h : ∀ r ∈ rows, faults r = noFaults ∧ ∃ n, rowAttempts r.stillInvestig = .ok n) :
    (runBatch cfg env faults rows).2 = true ∧
    ∀ r ∈ rows, ∃ st,
      Effect.dbUpdate r.domain r.fingerprint st ∈ (runBatch cfg env faults rows).1 := by
  induction rows with
  | nil => exact ⟨rfl, by simp⟩
  | cons r rest ih =>
    obtain ⟨hf, n, hn⟩ := h r (List.mem_cons_self r rest)
    obtain ⟨hnone, st, hst⟩ := processRow_fault_free cfg env faults r hf n hn
    obtain ⟨ihok, ihmem⟩ := ih (fun r' hr' => h r' (List.mem_cons_of_mem r hr'))
    cases hpr : processRow cfg env faults r with
    | mk effs res =>
      rw [hpr] at hnone hst
      subst hnone
      have hrb : runBatch cfg env faults (r :: rest)
          = (effs ++ (runBatch cfg env faults rest).1, (runBatch cfg env faults rest).2) := by
        simp only [runBatch, hpr]
      rw [hrb]
      refine ⟨ihok, fun r' hr' => ?_⟩
      rcases List.mem_cons.mp hr' with heq | hmem
      · subst heq
        exact ⟨st, List.mem_append_left _ hst⟩
      · obtain ⟨st', hst'⟩ := ihmem r' hmem
        exact ⟨st', List.mem_append_right _ hst'⟩

theorem c1_witness :
    (runBatch cfgThree probeFailEnv faultFree
      [⟨"a.example.com", "FA", none⟩, ⟨"b.example.com", "FB", some "2"⟩]).2 = true :=
  (c1_scan_failures_isolated cfgThree probeFailEnv faultFree
    [⟨"a.example.com", "FA", none⟩, ⟨"b.example.com", "FB", some "2"⟩]
    (by
      intro r hr
      rcases List.mem_cons.mp hr with h | hr2
      · subst h
        exact ⟨rfl, 0, rfl⟩
      · rcases List.mem_cons.mp hr2 with h | hr3
        · subst h
          exact ⟨rfl, 2, rfl⟩
        · simp at hr3)).1

/-! ## C2 fixtures: probe succeeds but DNS resolution raises -/

def dnsFailEnv : Row → HostEnv :=
  fun _ => ⟨some ⟨200, ""⟩, none, none, none, "2026-10-12T00:00:00"⟩

def phishRow : Row :=
  ⟨"phish.example.com", "AA:BB", none⟩

/-- C2: the HTTP probe answers (status 200), yet because
`socket.gethostbyname` raises, `scan_hostname`'s handler returns the empty
result: no Alert Artifact is written (no file-write effect appears) and the
row is stored as failed attempt "1" instead of being marked resolved — DNS
failure, unlike ownership-lookup failure, does prevent the artifact. -/
theorem c2_dns_failure_discards_probe :
    (dnsFailEnv phishRow).http = some ⟨200, ""⟩ ∧
    processRow cfgThree dnsFailEnv faultFree phishRow
        = ([.netRequest "https://phish.example.com", .dnsQuery "phish.example.com",
            .dbUpdate "phish.example.com" "AA:BB" "1"], none) ∧
    ((processRow cfgThree dnsFailEnv faultFree phishRow).1.all
        (fun e => !e.isFileWrite)) = true := by
  decide

/-- C2 (amended): for a host whose probe answers AND whose hostname resolves,
the Alert Artifact is written and the row is marked resolved (state set to the
run's timestamp) even when the ownership lookup fails completely — all five
ownership fields default to the empty string — and the reputation lookup is
skipped for lack of a credential; a DNS-resolution failure or a raising
reputation lookup instead discards the probe result entirely. -/
theorem c2_ownership_failure_still_resolves (cfg : Config) (env : Row → HostEnv)
    (faults : Row → RowFaults) (r : Row) (resp : HttpResp) (ip : String) (n : Int)
    (hw : strContains r.domain '*' = false)
    (hhttp : (env r).http = some resp)
    (hdns : (env r).dns = some ip)
    (hrdap : (env r).rdap = none)
    (hsb : cfg.sbKey = "")
    (hflt : faults r = noFaults)
    (hnd : cfg.notifDest = "")
    (ha : rowAttempts r.stillInvestig = .ok n) :
    processRow cfg env faults r
      = ([.netRequest ("https://" ++ r.domain), .dnsQuery r.domain,
          .dbUpdate r.domain r.fingerprint (env r).now]
          ++ (if cfg.fqdnDirs then [Effect.mkdir (fqdnPath cfg.alertsDir r.domain)] else [])
          ++ [.fileWrite (artifactPath cfg.alertsDir cfg.fqdnDirs r.domain)
               ⟨r.domain, resp.status_code, r.fingerprint, get_webpage_title resp.text, ip,
                "", "", "", "", "", "No API key in config file"⟩], none) := by
  have hscan : scan_hostname r.domain r.fingerprint cfg.sbKey (env r)
      = (some ⟨r.domain, resp.status_code, r.fingerprint, get_webpage_title resp.text, ip,
          "", "", "", "", "", "No API key in config file"⟩,
         [.netRequest ("https://" ++ r.domain), .dnsQuery r.domain]) := by
    unfold scan_hostname get_requests
    rw [hw]
    simp [hhttp, hdns, hrdap, hsb, get_ASN_Infos, emptyASNInfos]
  have hsucc : successBranch cfg (faults r) (env r) r
      ⟨r.domain, resp.status_code, r.fingerprint, get_webpage_title resp.text, ip,
        "", "", "", "", "", "No API key in config file"⟩
      = (Effect.dbUpdate r.domain r.fingerprint (env r).now
          :: ((if cfg.fqdnDirs then [Effect.mkdir (fqdnPath cfg.alertsDir r.domain)] else [])
          ++ [Effect.fileWrite (artifactPath cfg.alertsDir cfg.fqdnDirs r.domain)
               ⟨r.domain, resp.status_code, r.fingerprint, get_webpage_title resp.text, ip,
                "", "", "", "", "", "No API key in config file"⟩]), none) := by
    unfold successBranch
    rw [hflt]
    simp [hnd, noFaults]
  simp only [processRow, ha, hscan, hsucc]
  simp

def liveEnv : Row → HostEnv :=
  fun _ => ⟨some ⟨200, "<title>Shop</title>"⟩, some "203.0.113.7", none, none,
    "2026-10-12T00:00:00"⟩

def liveRow : Row :=
  ⟨"good.example.com", "12:34", some "1"⟩

theorem c2_witness :
    processRow cfgThree liveEnv faultFree liveRow
      = ([.netRequest "https://good.example.com", .dnsQuery "good.example.com",
          .dbUpdate "good.example.com" "12:34" "2026-10-12T00:00:00",
          .fileWrite "alerts/good.example.com.json"
            ⟨"good.example.com", 200, "12:34", "Shop", "203.0.113.7",
             "", "", "", "", "", "No API key in config file"⟩], none) := by
  rw [c2_ownership_failure_still_resolves cfgThree liveEnv faultFree liveRow
    ⟨200, "<title>Shop</title>"⟩ "203.0.113.7" 1 (by decide) rfl rfl rfl rfl rfl rfl rfl]
  decide
